import Mathlib

/-!
Shallow embedding of the judge-facing endpoints of the challenges service
(`src/challenges/src/endpoints/coding_challenges.rs`,
`src/challenges/src/endpoints/coding_challenges/mod.rs`,
`src/challenges/src/endpoints/matchings.rs`).

The judge service (`services/judge.rs`) is an external collaborator of the
endpoint code under study; it is represented by an oracle (`JudgeOracle`)
whose fields correspond to the judge operations the endpoints invoke:
`examples`, `get_example_checked`, `generate`, `run_solution`.  Each embedded
endpoint additionally returns the list of judge operations it invoked, in
order, so that call-ordering and fail-fast properties can be stated.
-/

namespace ChallengesMs

/-- Decidable equality for `Except`, used to evaluate results on concrete
inputs. -/
instance {ε α : Type} [DecidableEq ε] [DecidableEq α] :
    DecidableEq (Except ε α) := fun x y =>
  match x, y with
  | .ok a, .ok b =>
    if h : a = b then .isTrue (by rw [h]) else .isFalse (by simp [h])
  | .error a, .error b =>
    if h : a = b then .isTrue (by rw [h]) else .isFalse (by simp [h])
  | .ok _, .error _ => .isFalse (by simp)
  | .error _, .ok _ => .isFalse (by simp)

/-- One sandbox run record (stdout, stderr, exit status), as in
`sandkasten_client::schemas::programs::RunResult`. -/
structure RunResult where
  status : Int
  stdout : String
  stderr : String
  deriving DecidableEq

/-- Raw sandbox execution record of a possibly-failed build+run
(`sandkasten_client::schemas::programs::BuildRunResult`). -/
structure BuildRunResult where
  build : Option RunResult
  run : Option RunResult
  deriving DecidableEq

/-- Modelled from the spec: the evaluator's correctness judgment for one
graded attempt (the `Verdict` of a `CheckResult`); the schema file defining
it is not among the visible sources.  The claims under study never inspect
the verdict, only carry it. -/
inductive Verdict where
  | ok
  | wrongAnswer
  | error
  deriving DecidableEq

/-- Modelled from the spec: `CheckResult<T>` = {verdict, raw = T}; the schema
file defining it is not among the visible sources. -/
structure CheckResult (T : Type) where
  verdict : Verdict
  raw : T
  deriving DecidableEq

/-- A user-facing example (`schemas/coding_challenges.rs`, `Example`).
Uuids are modelled as strings. -/
structure Example where
  id : String
  challenge_id : String
  input : String
  output : String
  explanation : Option String
  deriving DecidableEq

/-- Errors of the judge service (`services::judge::Error`).  The service
itself is not among the visible sources; the three variants matched on by the
endpoints are taken from those match arms, and `other` stands for any further
judge error, which the endpoints propagate via `?` without matching on it. -/
inductive JudgeError where
  | evaluatorFailed (record : BuildRunResult)
  | invalidOutput (record : BuildRunResult)
  | environmentNotFound
  | other (message : String)
  deriving DecidableEq

/-- One judge operation invocation, as issued by the endpoint code. -/
inductive JudgeCall where
  | examplesCall
  | getExampleCheckedCall (seed env code : String)
      (time_limit memory_limit : Option Nat)
  | generateCall (seed : String)
  | runSolutionCall (seed input env code : String)
      (time_limit memory_limit : Option Nat)
  deriving DecidableEq

/-- Oracle for the judge service: the results the judge returns for each
operation the endpoints may invoke.  `get_example_checked` returns
`Ok(Ok(example))` on success, `Ok(Err(check_result))` when the reference
solution fails the test case, and `Err(judge_error)` on a protocol error. -/
structure JudgeOracle where
  examples : Except JudgeError (List String)
  get_example_checked : String → String → String → Option Nat → Option Nat →
    Except JudgeError (Except (CheckResult RunResult) Example)
  generate : String → Except JudgeError String
  run_solution : String → String → String → String → Option Nat → Option Nat →
    Except JudgeError (CheckResult RunResult)

/-- The error cases of the challenge self-check
(`endpoints/coding_challenges/mod.rs`, `enum CheckError`). -/
inductive CheckError where
  | noExamples
  | environmentNotFound
  | evaluatorFailed (record : BuildRunResult)
  | invalidOutput (record : BuildRunResult)
  | testcaseFailed (seed : String) (result : CheckResult RunResult)
  deriving DecidableEq

/-- The seed the reported self-check error names, if any: only
`TestcaseFailed` (via `CheckTestcaseError`) carries a seed field. -/
def CheckError.seed_of : CheckError → Option String
  | .testcaseFailed seed _ => some seed
  | _ => none

/-- The i-th static seed of a challenge:
`format!("_static_{x}_{challenge_id}")` in `check_challenge`. -/
def static_seed (challenge_id : String) (i : Nat) : String :=
  "_static_" ++ toString i ++ "_" ++ challenge_id

/-- The full seed sequence iterated by `check_challenge`: declared examples,
then the static seeds for indices `0..static_tests`, then `random_tests`
freshly minted random seeds (`mint` stands for `Uuid::new_v4`). -/
def seed_sequence (examples : List String) (challenge_id : String)
    (static_tests random_tests : Nat) (mint : Nat → String) : List String :=
  examples ++ (List.range static_tests).map (static_seed challenge_id)
    ++ (List.range random_tests).map mint

/-- The judge call for one seed of the self-check loop. -/
def example_call (env code : String) (tl ml : Option Nat) (seed : String) :
    JudgeCall :=
  .getExampleCheckedCall seed env code tl ml

/-- The per-seed loop body of `check_challenge`
(`endpoints/coding_challenges/mod.rs` lines 105-137): for each seed call
`judge.get_example_checked`, translating `EnvironmentNotFound`,
`EvaluatorFailed` and `InvalidOutput` into the corresponding `CheckError`,
propagating any other judge error via `?`, and stopping with
`TestcaseFailed` at the first seed on which the reference solution fails. -/
def check_seeds (judge : JudgeOracle) (env code : String) (tl ml : Option Nat) :
    List String → Except JudgeError (Except CheckError Unit) × List JudgeCall
  | [] => (.ok (.ok ()), [])
  | seed :: rest =>
    let call := example_call env code tl ml seed
    match judge.get_example_checked seed env code tl ml with
    | .error .environmentNotFound => (.ok (.error .environmentNotFound), [call])
    | .error (.evaluatorFailed r) => (.ok (.error (.evaluatorFailed r)), [call])
    | .error (.invalidOutput r) => (.ok (.error (.invalidOutput r)), [call])
    | .error e => (.error e, [call])
    | .ok (.error result) =>
      (.ok (.error (.testcaseFailed seed result)), [call])
    | .ok (.ok _) =>
      let r := check_seeds judge env code tl ml rest
      (r.1, call :: r.2)

/-- The arguments of `check_challenge` (`struct CheckChallenge`). -/
structure CheckChallenge where
  judge : JudgeOracle
  challenge_id : String
  solution_environment : String
  solution_code : String
  time_limit : Nat
  memory_limit : Nat
  static_tests : Nat
  random_tests : Nat

/-- The challenge self-check workflow (`check_challenge` in
`endpoints/coding_challenges/mod.rs`): list the evaluator's examples
(translating `EvaluatorFailed`/`InvalidOutput`, propagating other judge
errors via `?`), fail with `NoExamples` on an empty list, and otherwise run
the seed loop over declared examples ++ static seeds ++ random seeds.
`mint` stands for the `Uuid::new_v4` calls minting the random seeds. -/
def check_challenge (c : CheckChallenge) (mint : Nat → String) :
    Except JudgeError (Except CheckError Unit) × List JudgeCall :=
  match c.judge.examples with
  | .error (.evaluatorFailed r) => (.ok (.error (.evaluatorFailed r)), [.examplesCall])
  | .error (.invalidOutput r) => (.ok (.error (.invalidOutput r)), [.examplesCall])
  | .error e => (.error e, [.examplesCall])
  | .ok examples =>
    if examples.isEmpty then (.ok (.error .noExamples), [.examplesCall])
    else
      let r := check_seeds c.judge c.solution_environment c.solution_code
        (some c.time_limit) (some c.memory_limit)
        (seed_sequence examples c.challenge_id c.static_tests c.random_tests mint)
      (r.1, .examplesCall :: r.2)

/-- Whether the reference solution passes the self-check on one seed:
`get_example_checked` returns `Ok(Ok(_))`. -/
def passes (judge : JudgeOracle) (env code : String) (tl ml : Option Nat)
    (seed : String) : Bool :=
  match judge.get_example_checked seed env code tl ml with
  | .ok (.ok _) => true
  | _ => false

/-- The example a seed materializes to in `get_examples` (invocation with
`None` limits), when materialization succeeds. -/
def materialize (judge : JudgeOracle) (env code seed : String) :
    Option Example :=
  match judge.get_example_checked seed env code none none with
  | .ok (.ok ex) => some ex
  | _ => none

/-- Whether `get_example_checked` with `None` limits succeeds on a seed. -/
def mat_ok (judge : JudgeOracle) (env code seed : String) : Bool :=
  (materialize judge env code seed).isSome

/-- Whether `get_example_checked` with `None` limits reports a judge error
(which `get_examples` propagates via `?`) on a seed. -/
def mat_judge_error (judge : JudgeOracle) (env code seed : String) : Bool :=
  match judge.get_example_checked seed env code none none with
  | .error _ => true
  | _ => false

/-- Whether `get_example_checked` with `None` limits reports that the
reference solution failed the test case behind a seed. -/
def mat_failed (judge : JudgeOracle) (env code seed : String) : Bool :=
  match judge.get_example_checked seed env code none none with
  | .ok (.error _) => true
  | _ => false

/-- The responses of the get-examples endpoint (`response!(GetExamples ...)`
in `endpoints/coding_challenges.rs`).  `EvaluatorFailed` and
`ExampleGenerationFailed` carry no payload there; `internalError` stands for
an `ErrorResponse` produced by `?` on an unhandled judge error. -/
inductive GetExamplesResponse where
  | ok (examples : List Example)
  | subtaskNotFound
  | evaluatorFailed
  | exampleGenerationFailed
  | internalError (e : JudgeError)
  deriving DecidableEq

/-- The sandbox record the surfaced get-examples response carries, if any. -/
def GetExamplesResponse.record_of : GetExamplesResponse → Option BuildRunResult
  | .internalError (.evaluatorFailed r) => some r
  | .internalError (.invalidOutput r) => some r
  | _ => none

/-- The per-seed loop of `get_examples` (`endpoints/coding_challenges.rs`
lines 109-131): `get_example_checked(seed, env, code, None, None)` for each
seed in order; a judge error propagates via `?`, a failed materialization
returns `ExampleGenerationFailed`, successes are collected in order. -/
def get_examples_loop (judge : JudgeOracle) (env code : String) :
    List String → GetExamplesResponse × List JudgeCall
  | [] => (.ok [], [])
  | seed :: rest =>
    let call := example_call env code none none seed
    match judge.get_example_checked seed env code none none with
    | .error e => (.internalError e, [call])
    | .ok (.error _) => (.exampleGenerationFailed, [call])
    | .ok (.ok ex) =>
      let r := get_examples_loop judge env code rest
      (match r.1 with
       | .ok out => .ok (ex :: out)
       | other => other, call :: r.2)

/-- The get-examples endpoint from the point where the challenge row has been
loaded (`get_examples` in `endpoints/coding_challenges.rs`): list the
evaluator's examples (an `EvaluatorFailed` or `InvalidOutput` there is logged
and answered with the payload-free `EvaluatorFailed` response, any other
judge error propagates via `?`), then materialize every listed seed against
the challenge's reference solution `(env, code)`. -/
def get_examples (judge : JudgeOracle) (env code : String) :
    GetExamplesResponse × List JudgeCall :=
  match judge.examples with
  | .error (.evaluatorFailed _) => (.evaluatorFailed, [.examplesCall])
  | .error (.invalidOutput _) => (.evaluatorFailed, [.examplesCall])
  | .error e => (.internalError e, [.examplesCall])
  | .ok seeds =>
    let r := get_examples_loop judge env code seeds
    (r.1, .examplesCall :: r.2)

/-- The responses of the test-example endpoint (`response!(TestExample ...)`
in `endpoints/coding_challenges.rs`). -/
inductive TestExampleResponse where
  | ok (result : CheckResult RunResult)
  | exampleNotFound
  | environmentNotFound
  | evaluatorFailed
  | internalError (e : JudgeError)
  deriving DecidableEq

/-- The test-example endpoint (`test_example` in
`endpoints/coding_challenges.rs`): `found` models whether the challenge row
was found (`get_challenge` returning some).  It lists the evaluator's
examples, answers `ExampleNotFound` when the requested id is not among them,
and only then generates the input and runs the submitted solution. -/
def test_example (judge : JudgeOracle) (found : Bool) (example_id : String)
    (sub_env sub_code : String) (time_limit memory_limit : Nat) :
    TestExampleResponse × List JudgeCall :=
  if found then
    match judge.examples with
    | .error (.evaluatorFailed _) => (.evaluatorFailed, [.examplesCall])
    | .error (.invalidOutput _) => (.evaluatorFailed, [.examplesCall])
    | .error e => (.internalError e, [.examplesCall])
    | .ok examples =>
      if examples.contains example_id then
        match judge.generate example_id with
        | .error (.evaluatorFailed _) =>
          (.evaluatorFailed, [.examplesCall, .generateCall example_id])
        | .error (.invalidOutput _) =>
          (.evaluatorFailed, [.examplesCall, .generateCall example_id])
        | .error e =>
          (.internalError e, [.examplesCall, .generateCall example_id])
        | .ok inp =>
          let rcall := JudgeCall.runSolutionCall example_id inp sub_env sub_code
            (some time_limit) (some memory_limit)
          match judge.run_solution example_id inp sub_env sub_code
              (some time_limit) (some memory_limit) with
          | .error (.evaluatorFailed _) =>
            (.evaluatorFailed, [.examplesCall, .generateCall example_id, rcall])
          | .error (.invalidOutput _) =>
            (.evaluatorFailed, [.examplesCall, .generateCall example_id, rcall])
          | .error .environmentNotFound =>
            (.environmentNotFound, [.examplesCall, .generateCall example_id, rcall])
          | .error e =>
            (.internalError e, [.examplesCall, .generateCall example_id, rcall])
          | .ok result =>
            (.ok result, [.examplesCall, .generateCall example_id, rcall])
      else (.exampleNotFound, [.examplesCall])
  else (.exampleNotFound, [])

/-- The validation errors of `check_matching` (`endpoints/matchings.rs`,
`enum InvalidMatchingError`); the `HashSet<u8>` payload is modelled as the
list of unmatched indices in ascending order. -/
inductive InvalidMatchingError where
  | leftRightDifferentLength
  | solutionDifferentLength
  | invalidIndex (x : Nat)
  | rightEntriesNotMatched (xs : List Nat)
  deriving DecidableEq

/-- `check_matching` (`endpoints/matchings.rs` lines 518-541).  `solution`
entries are `u8` values; `n as _` in the source truncates `left.len()` to
`u8`, which is modelled by `left.length % 256`. -/
def check_matching (left right : List String) (solution : List Nat) :
    Except InvalidMatchingError Unit :=
  let n := left.length
  if right.length ≠ n then .error .leftRightDifferentLength
  else if solution.length ≠ n then .error .solutionDifferentLength
  else
    match solution.find? (fun x => n % 256 ≤ x) with
    | some x => .error (.invalidIndex x)
    | none =>
      let not_matched := (List.range (n % 256)).filter
        (fun i => ! solution.contains i)
      if not_matched ≠ [] then .error (.rightEntriesNotMatched not_matched)
      else .ok ()

/-- The database writes `solve_matching` may perform. -/
inductive SolveEffect where
  | updateUserSubtaskWrite
  | sendTaskRewardsWrite
  | insertAttemptWrite
  deriving DecidableEq

/-- The responses of `solve_matching` (`response!(SolveMatching ...)`). -/
inductive SolveMatchingResponse where
  | ok (solved : Bool) (correct : Nat)
  | tooManyRequests (time_left : Int)
  | subtaskNotFound
  | noAccess
  | solutionDifferentLength
  deriving DecidableEq

/-- The inputs `solve_matching` reads: the matching row and subtask row
(found, creator, enabled, solution), the authenticated user (user_id,
admin), the user-subtask state (`has_access` = `check_access`,
`solved_previously` = `is_solved`), the rate-limit state computed from the
previous attempts (`has_previous_attempt`, `time_left`), and the submitted
answer. -/
structure SolveMatchingInput where
  matching_found : Bool
  admin : Bool
  user_id : String
  creator : String
  enabled : Bool
  has_access : Bool
  solved_previously : Bool
  has_previous_attempt : Bool
  time_left : Int
  solution : List Nat
  answer : List Nat

/-- `solve_matching` (`endpoints/matchings.rs` lines 333-419), returning the
response and the list of database writes performed.  The feedback counts the
positions where the answer agrees with the stored solution; writes happen
only when the user had not solved the matching before. -/
def solve_matching (i : SolveMatchingInput) :
    SolveMatchingResponse × List SolveEffect :=
  if ¬ i.matching_found then (.subtaskNotFound, [])
  else if ¬ i.admin ∧ i.user_id ≠ i.creator ∧ ¬ i.enabled then
    (.subtaskNotFound, [])
  else if ¬ i.has_access then (.noAccess, [])
  else if i.answer.length ≠ i.solution.length then
    (.solutionDifferentLength, [])
  else if i.has_previous_attempt ∧ ¬ i.solved_previously ∧ 0 < i.time_left then
    (.tooManyRequests i.time_left, [])
  else
    let correct := (i.answer.zip i.solution).countP (fun p => p.1 == p.2)
    let solved : Bool := correct == i.solution.length
    let effects :=
      if ¬ i.solved_previously then
        (if solved then
          SolveEffect.updateUserSubtaskWrite ::
            (if i.user_id ≠ i.creator then [SolveEffect.sendTaskRewardsWrite]
             else [])
         else []) ++ [SolveEffect.insertAttemptWrite]
      else []
    (.ok solved correct, effects)

/-- The shared store state relevant to first-solve rewards for one
(user, subtask) pair: whether a solved record exists, how many solved-record
writes were performed, and how many reward issuances were sent. -/
structure RewardStore where
  solved : Bool
  record_writes : Nat
  reward_sends : Nat
  deriving DecidableEq

/-- Phases of one `solve_matching`-style request in the interleaving model:
it first reads the user-subtask state (`get_user_subtask` / `is_solved`),
then — if it saw "not yet solved" and the answer is correct — writes the
solved record and sends the reward.  Each database operation is atomic, but
no lock is held across the read-check-write. -/
inductive UPhase where
  | readStep
  | writeStep (saw : Bool)
  | finished
  deriving DecidableEq

/-- One atomic step of an unguarded first-correct-solve request (the
read-check-write of `solve_matching`, lines 348-416 of
`endpoints/matchings.rs`, with the submitted answer correct). -/
def unguarded_step (p : UPhase) (s : RewardStore) : UPhase × RewardStore :=
  match p with
  | .readStep => (.writeStep s.solved, s)
  | .writeStep saw =>
    if saw then (.finished, s)
    else (.finished,
      { solved := true, record_writes := s.record_writes + 1,
        reward_sends := s.reward_sends + 1 })
  | .finished => (.finished, s)

/-- Run two concurrent unguarded requests under a schedule: `true` steps the
first request, `false` the second. -/
def run_unguarded (sched : List Bool) (p1 p2 : UPhase) (s : RewardStore) :
    UPhase × UPhase × RewardStore :=
  match sched with
  | [] => (p1, p2, s)
  | pid :: rest =>
    if pid then
      let r := unguarded_step p1 s
      run_unguarded rest r.1 p2 r.2
    else
      let r := unguarded_step p2 s
      run_unguarded rest p1 r.1 r.2

/-- Modelled from the spec: phases of a first-correct-solve request under
the Reward Guard of the coding-challenge grading path (the `reward_lock` of
`CodingChallenges::get_api`; the submissions endpoint holding it across the
read-check-write is not among the visible sources).  The request acquires
the per-subtask guard, reads the solved state, conditionally writes the
record and sends the reward, and releases the guard. -/
inductive GPhase where
  | acquireStep
  | readStep
  | writeStep (saw : Bool)
  | finished
  deriving DecidableEq

/-- Global state of the guarded model: the two request phases, the lock
owner (`some true` = first request), and the store. -/
structure GState where
  p1 : GPhase
  p2 : GPhase
  lock : Option Bool
  store : RewardStore
  deriving DecidableEq

/-- Modelled from the spec: one atomic step of request `pid` in the guarded
model.  Acquisition blocks (is a no-op) while the other request holds the
guard; the write releases the guard. -/
def guarded_step (pid : Bool) (g : GState) : GState :=
  let p := if pid then g.p1 else g.p2
  match p with
  | .acquireStep =>
    match g.lock with
    | none =>
      if pid then { g with p1 := .readStep, lock := some pid }
      else { g with p2 := .readStep, lock := some pid }
    | some _ => g
  | .readStep =>
    if pid then { g with p1 := .writeStep g.store.solved }
    else { g with p2 := .writeStep g.store.solved }
  | .writeStep saw =>
    let st := if saw then g.store else
      { solved := true, record_writes := g.store.record_writes + 1,
        reward_sends := g.store.reward_sends + 1 }
    if pid then { g with p1 := .finished, lock := none, store := st }
    else { g with p2 := .finished, lock := none, store := st }
  | .finished => g

/-- Run the guarded model under a schedule. -/
def run_guarded (sched : List Bool) (g : GState) : GState :=
  match sched with
  | [] => g
  | pid :: rest => run_guarded rest (guarded_step pid g)

/-- Initial state of the guarded model: both requests about to acquire the
guard, lock free, user has not solved the subtask, nothing written. -/
def g_init : GState :=
  { p1 := .acquireStep, p2 := .acquireStep, lock := none,
    store := { solved := false, record_writes := 0, reward_sends := 0 } }

/-- Whether a phase is inside the guarded critical section (and hence must
own the lock). -/
def in_critical : GPhase → Bool
  | .readStep => true
  | .writeStep _ => true
  | _ => false

/-- The invariant of the guarded model: rewards and record writes track the
solved flag, critical sections own the lock, a pending write saw the current
solved state, and a finished request left the subtask solved. -/
def RewardInv (g : GState) : Prop :=
  g.store.reward_sends = (if g.store.solved then 1 else 0)
  ∧ g.store.record_writes = g.store.reward_sends
  ∧ (in_critical g.p1 = true → g.lock = some true)
  ∧ (in_critical g.p2 = true → g.lock = some false)
  ∧ (∀ saw, g.p1 = .writeStep saw → saw = g.store.solved)
  ∧ (∀ saw, g.p2 = .writeStep saw → saw = g.store.solved)
  ∧ (g.p1 = .finished → g.store.solved = true)
  ∧ (g.p2 = .finished → g.store.solved = true)

/-! Concrete fixtures used to evaluate the theorems on explicit inputs. -/

/-- A concrete example value. -/
def ex_w : Example :=
  { id := "a", challenge_id := "c", input := "3\n", output := "9\n",
    explanation := none }

/-- A concrete sandbox run record. -/
def run_w : RunResult := { status := 1, stdout := "", stderr := "boom" }

/-- A concrete sandbox build+run record. -/
def build_w : BuildRunResult := { build := some run_w, run := none }

/-- A concrete negative check result. -/
def check_res_w : CheckResult RunResult :=
  { verdict := .wrongAnswer, raw := run_w }

/-- An oracle on which every operation succeeds. -/
def judge_all_ok : JudgeOracle :=
  { examples := .ok ["a"]
    get_example_checked := fun _ _ _ _ _ => .ok (.ok ex_w)
    generate := fun _ => .ok "3\n"
    run_solution := fun _ _ _ _ _ _ =>
      .ok { verdict := .ok, raw := run_w } }

/-- An oracle whose declared example list is empty. -/
def judge_empty : JudgeOracle :=
  { judge_all_ok with examples := .ok [] }

/-- An oracle that lists one example but reports a missing environment for
every seed. -/
def judge_env_missing : JudgeOracle :=
  { judge_all_ok with
    get_example_checked := fun _ _ _ _ _ => .error .environmentNotFound }

/-- An oracle whose example listing itself crashes. -/
def judge_list_fails : JudgeOracle :=
  { judge_all_ok with examples := .error (.evaluatorFailed build_w) }

/-- An oracle listing two examples whose reference solution fails on the
second seed only. -/
def judge_seed_fails : JudgeOracle :=
  { judge_all_ok with
    examples := .ok ["a", "b"]
    get_example_checked := fun seed _ _ _ _ =>
      if seed = "b" then .ok (.error check_res_w) else .ok (.ok ex_w) }

/-- A concrete random-seed mint. -/
def mint_w : Nat → String := fun i => "rand" ++ toString i

/-- Concrete `check_challenge` arguments over a given oracle. -/
def check_args (judge : JudgeOracle) : CheckChallenge :=
  { judge := judge, challenge_id := "cid", solution_environment := "python"
    solution_code := "print(9)", time_limit := 1000, memory_limit := 256
    static_tests := 1, random_tests := 1 }

/-- A concrete `solve_matching` request by a user who has already solved the
matching and now submits a half-correct answer. -/
def solve_in_w : SolveMatchingInput :=
  { matching_found := true, admin := false, user_id := "u", creator := "v"
    enabled := true, has_access := true, solved_previously := true
    has_previous_attempt := true, time_left := 5
    solution := [1, 0], answer := [1, 1] }

/-! Lemmas about the self-check seed loop. -/

/-- The seeds on which the loop consults the judge are exactly the passing
seeds up to and including the first failing one, in sequence order. -/
theorem check_seeds_trace (judge : JudgeOracle) (env code : String)
    (tl ml : Option Nat) (seeds : List String) :
    (check_seeds judge env code tl ml seeds).2 =
      (seeds.takeWhile (passes judge env code tl ml)
        ++ (seeds.dropWhile (passes judge env code tl ml)).take 1).map
        (example_call env code tl ml) := by
  induction seeds with
  | nil => simp [check_seeds]
  | cons s rest ih =>
    cases h : judge.get_example_checked s env code tl ml with
    | error e =>
      cases e <;>
        simp [check_seeds, h, passes, List.takeWhile_cons, List.dropWhile_cons]
    | ok r =>
      cases r with
      | error res =>
        simp [check_seeds, h, passes, List.takeWhile_cons, List.dropWhile_cons]
      | ok ex =>
        simp [check_seeds, h, passes, List.takeWhile_cons, List.dropWhile_cons,
          ih]

/-- The loop succeeds exactly when every seed of the sequence passes. -/
theorem check_seeds_ok_iff (judge : JudgeOracle) (env code : String)
    (tl ml : Option Nat) (seeds : List String) :
    (check_seeds judge env code tl ml seeds).1 = .ok (.ok ()) ↔
      ∀ s ∈ seeds, passes judge env code tl ml s = true := by
  induction seeds with
  | nil => simp [check_seeds]
  | cons s rest ih =>
    cases h : judge.get_example_checked s env code tl ml with
    | error e => cases e <;> simp [check_seeds, h, passes]
    | ok r =>
      cases r with
      | error res => simp [check_seeds, h, passes]
      | ok ex => simp [check_seeds, h, passes, ih]

/-- A passing block at the front of the sequence does not change the loop's
result. -/
theorem check_seeds_skip (judge : JudgeOracle) (env code : String)
    (tl ml : Option Nat) (pre rest : List String)
    (hpre : ∀ s ∈ pre, passes judge env code tl ml s = true) :
    (check_seeds judge env code tl ml (pre ++ rest)).1 =
      (check_seeds judge env code tl ml rest).1 := by
  induction pre with
  | nil => rfl
  | cons s pre ih =>
    have hs := hpre s (by simp)
    rw [List.cons_append]
    cases h : judge.get_example_checked s env code tl ml with
    | error e => simp [passes, h] at hs
    | ok r =>
      cases r with
      | error res => simp [passes, h] at hs
      | ok ex =>
        simp only [check_seeds, h]
        exact ih (fun x hx => hpre x (by simp [hx]))

/-! C1, C2, C6: the self-check workflow. -/

/-- C1: with a non-empty declared example list, the self-check consults the
judge once per seed of examples ++ static seeds ++ random seeds, in exactly
that order, stopping at the first failing seed without evaluating any later
seed, and succeeds exactly when every seed of the sequence passes. -/
theorem c1_self_check_seed_order (c : CheckChallenge) (mint : Nat → String)
    (exs : List String) (hex : c.judge.examples = .ok exs) (hne : exs ≠ []) :
    (check_challenge c mint).2 =
      .examplesCall ::
        ((seed_sequence exs c.challenge_id c.static_tests c.random_tests
            mint).takeWhile
            (passes c.judge c.solution_environment c.solution_code
              (some c.time_limit) (some c.memory_limit))
          ++ ((seed_sequence exs c.challenge_id c.static_tests c.random_tests
            mint).dropWhile
            (passes c.judge c.solution_environment c.solution_code
              (some c.time_limit) (some c.memory_limit))).take 1).map
          (example_call c.solution_environment c.solution_code
            (some c.time_limit) (some c.memory_limit))
    ∧ ((check_challenge c mint).1 = .ok (.ok ()) ↔
        ∀ s ∈ seed_sequence exs c.challenge_id c.static_tests c.random_tests
            mint,
          passes c.judge c.solution_environment c.solution_code
            (some c.time_limit) (some c.memory_limit) s = true) := by
  have hni : exs.isEmpty = false := by
    cases exs with
    | nil => simp at hne
    | cons a l => rfl
  constructor
  · simp [check_challenge, hex, hni, check_seeds_trace]
  · simp [check_challenge, hex, hni, check_seeds_ok_iff]

/-- Witness for C1: on an oracle with declared example list `["a"]` on which
every seed passes, the self-check succeeds. -/
theorem c1_self_check_seed_order_witness :
    (check_args judge_all_ok).judge.examples = .ok ["a"]
    ∧ (check_challenge (check_args judge_all_ok) mint_w).1 = .ok (.ok ()) :=
  ⟨rfl,
    (c1_self_check_seed_order (check_args judge_all_ok) mint_w ["a"] rfl
      (by decide)).2.mpr (by decide)⟩

/-- C2: an empty declared example list makes the self-check fail with the
distinct no-examples error before the seed loop; the judge is consulted for
the listing only, so neither generate nor check runs for any seed. -/
theorem c2_no_examples_fail_fast (c : CheckChallenge) (mint : Nat → String)
    (hex : c.judge.examples = .ok []) :
    check_challenge c mint = (.ok (.error .noExamples), [.examplesCall]) := by
  simp [check_challenge, hex]

/-- Witness for C2: the oracle with an empty example list. -/
theorem c2_no_examples_fail_fast_witness :
    (check_args judge_empty).judge.examples = .ok []
    ∧ check_challenge (check_args judge_empty) mint_w =
        (.ok (.error .noExamples), [.examplesCall]) :=
  ⟨rfl, c2_no_examples_fail_fast (check_args judge_empty) mint_w rfl⟩

/-- C6: the i-th static seed of the self-check sequence is the string
`_static_{i}_{challenge_id}`, a function of the challenge id and the index
alone — independent of the declared examples, the random mint and the test
counts — so two runs with the same challenge id and static count use
identical static seed sequences. -/
theorem c6_static_seed_deterministic (examples : List String) (cid : String)
    (st rt i : Nat) (mint : Nat → String) (h : i < st) :
    static_seed cid i = "_static_" ++ toString i ++ "_" ++ cid
    ∧ (seed_sequence examples cid st rt mint)[examples.length + i]? =
        some ("_static_" ++ toString i ++ "_" ++ cid) := by
  refine ⟨rfl, ?_⟩
  unfold seed_sequence
  rw [List.append_assoc, List.getElem?_append_right (by omega)]
  rw [Nat.add_sub_cancel_left]
  rw [List.getElem?_append]
  simp [List.length_map, List.length_range, h, List.getElem?_range h,
    static_seed]

/-- Witness for C6: the second static seed of a concrete run. -/
theorem c6_static_seed_deterministic_witness :
    (1 : Nat) < 2
    ∧ (static_seed "cid" 1 = "_static_" ++ toString 1 ++ "_" ++ "cid"
      ∧ (seed_sequence ["e"] "cid" 2 3 mint_w)[["e"].length + 1]? =
          some ("_static_" ++ toString 1 ++ "_" ++ "cid")) :=
  ⟨by decide,
    c6_static_seed_deterministic ["e"] "cid" 2 3 1 mint_w (by decide)⟩

/-! C3: the get-examples endpoint. -/

/-- When every listed seed materializes, the loop returns one example per
seed, in order, consulting the judge once per seed with `None` limits. -/
theorem get_examples_loop_ok (judge : JudgeOracle) (env code : String)
    (seeds : List String)
    (hall : ∀ s ∈ seeds, mat_ok judge env code s = true) :
    get_examples_loop judge env code seeds =
      (.ok (seeds.filterMap (materialize judge env code)),
       seeds.map (example_call env code none none)) := by
  induction seeds with
  | nil => simp [get_examples_loop]
  | cons s rest ih =>
    have hs := hall s (by simp)
    cases h : judge.get_example_checked s env code none none with
    | error e => simp [mat_ok, materialize, h] at hs
    | ok r =>
      cases r with
      | error res => simp [mat_ok, materialize, h] at hs
      | ok ex =>
        simp [get_examples_loop, h, ih (fun x hx => hall x (by simp [hx])),
          List.filterMap_cons, materialize]

/-- When no seed reports a judge error but some seed's materialization
fails, the loop answers `ExampleGenerationFailed`. -/
theorem get_examples_loop_failed (judge : JudgeOracle) (env code : String)
    (seeds : List String)
    (hnoerr : ∀ s ∈ seeds, mat_judge_error judge env code s = false)
    (hfail : ∃ s ∈ seeds, mat_failed judge env code s = true) :
    (get_examples_loop judge env code seeds).1 = .exampleGenerationFailed := by
  induction seeds with
  | nil => simp at hfail
  | cons s rest ih =>
    cases h : judge.get_example_checked s env code none none with
    | error e =>
      have := hnoerr s (by simp)
      simp [mat_judge_error, h] at this
    | ok r =>
      cases r with
      | error res => simp [get_examples_loop, h]
      | ok ex =>
        obtain ⟨t, ht, htf⟩ := hfail
        rcases List.mem_cons.1 ht with rfl | htr
        · simp [mat_failed, h] at htf
        · have hres := ih (fun x hx => hnoerr x (by simp [hx])) ⟨t, htr, htf⟩
          simp only [get_examples_loop, h]
          rw [hres]

/-- Auxiliary: a `filterMap` whose function succeeds on every element keeps
the length. -/
theorem length_filterMap_of_isSome {α β : Type} (f : α → Option β)
    (l : List α) (h : ∀ x ∈ l, (f x).isSome = true) :
    (l.filterMap f).length = l.length := by
  induction l with
  | nil => rfl
  | cons a l ih =>
    obtain ⟨b, hb⟩ := Option.isSome_iff_exists.1 (h a (by simp))
    simp [List.filterMap_cons, hb, ih (fun x hx => h x (by simp [hx]))]

/-- C3: with the evaluator listing `seeds`, the get-examples endpoint
returns exactly one example per listed seed, in listing order, each
materialized by `get_example_checked` against the challenge's reference
solution `(env, code)`; and when the materialization of some seed fails, it
answers the example-generation-failed error rather than a partial list. -/
theorem c3_get_examples_per_seed (judge : JudgeOracle) (env code : String)
    (seeds : List String) (hex : judge.examples = .ok seeds) :
    ((∀ s ∈ seeds, mat_ok judge env code s = true) →
      get_examples judge env code =
        (.ok (seeds.filterMap (materialize judge env code)),
         .examplesCall :: seeds.map (example_call env code none none))
      ∧ (seeds.filterMap (materialize judge env code)).length = seeds.length)
    ∧ ((∀ s ∈ seeds, mat_judge_error judge env code s = false) →
       (∃ s ∈ seeds, mat_failed judge env code s = true) →
       (get_examples judge env code).1 = .exampleGenerationFailed) := by
  constructor
  · intro hall
    constructor
    · simp [get_examples, hex, get_examples_loop_ok judge env code seeds hall]
    · exact length_filterMap_of_isSome _ _ (fun s hs => hall s hs)
  · intro hnoerr hfail
    simp [get_examples, hex,
      get_examples_loop_failed judge env code seeds hnoerr hfail]

/-- Witness for C3: the all-succeeding oracle materializes its one listed
seed. -/
theorem c3_get_examples_per_seed_witness :
    get_examples judge_all_ok "python" "print(9)" =
      (.ok (["a"].filterMap (materialize judge_all_ok "python" "print(9)")),
       .examplesCall :: ["a"].map (example_call "python" "print(9)" none none))
    ∧ (["a"].filterMap (materialize judge_all_ok "python" "print(9)")).length =
        (["a"] : List String).length :=
  (c3_get_examples_per_seed judge_all_ok "python" "print(9)" ["a"] rfl).1
    (by decide)

/-! C8: the test-example endpoint. -/

/-- C8: when the requested example id is not among the seeds the evaluator
lists, the test-example endpoint answers `ExampleNotFound` after the listing
call only — no input generation, no solution run; and on every path, any
generate or run-solution invocation is for the requested id and happens only
when the evaluator listed it. -/
theorem c8_test_example_guard (judge : JudgeOracle)
    (example_id sub_env sub_code : String) (tl ml : Nat)
    (seeds : List String) (hex : judge.examples = .ok seeds) :
    (seeds.contains example_id = false →
      test_example judge true example_id sub_env sub_code tl ml =
        (.exampleNotFound, [.examplesCall]))
    ∧ (∀ s, JudgeCall.generateCall s ∈
        (test_example judge true example_id sub_env sub_code tl ml).2 →
        s = example_id ∧ seeds.contains example_id = true)
    ∧ (∀ s inp e c tl2 ml2, JudgeCall.runSolutionCall s inp e c tl2 ml2 ∈
        (test_example judge true example_id sub_env sub_code tl ml).2 →
        s = example_id ∧ seeds.contains example_id = true) := by
  refine ⟨?_, ?_, ?_⟩
  · intro hc
    have hc' : example_id ∉ seeds := by simpa using hc
    simp [test_example, hex, hc']
  · intro s hs
    by_cases hc : example_id ∈ seeds
    · have hc' : seeds.contains example_id = true := by simpa using hc
      cases hg : judge.generate example_id with
      | error e =>
        cases e <;> simp [test_example, hex, hc, hg] at hs <;> exact ⟨hs, hc'⟩
      | ok inp =>
        cases hr : judge.run_solution example_id inp sub_env sub_code
            (some tl) (some ml) with
        | error e =>
          cases e <;> simp [test_example, hex, hc, hg, hr] at hs <;>
            exact ⟨hs, hc'⟩
        | ok result =>
          simp [test_example, hex, hc, hg, hr] at hs
          exact ⟨hs, hc'⟩
    · simp [test_example, hex, hc] at hs
  · intro s inp e c tl2 ml2 hs
    by_cases hc : example_id ∈ seeds
    · have hc' : seeds.contains example_id = true := by simpa using hc
      cases hg : judge.generate example_id with
      | error er =>
        cases er <;> simp [test_example, hex, hc, hg] at hs
      | ok inp2 =>
        cases hr : judge.run_solution example_id inp2 sub_env sub_code
            (some tl) (some ml) with
        | error er =>
          cases er <;> simp [test_example, hex, hc, hg, hr] at hs <;>
            exact ⟨hs.1, hc'⟩
        | ok result =>
          simp [test_example, hex, hc, hg, hr] at hs
          exact ⟨hs.1, hc'⟩
    · simp [test_example, hex, hc] at hs

/-- Witness for C8: requesting an unlisted example id. -/
theorem c8_test_example_guard_witness :
    test_example judge_all_ok true "zzz" "python" "print(9)" 1000 256 =
      (.exampleNotFound, [.examplesCall]) :=
  (c8_test_example_guard judge_all_ok "zzz" "python" "print(9)" 1000 256
    ["a"] rfl).1 (by decide)

/-! C4: which self-check errors identify the failing seed. -/

/-- Counterexample to C4 as stated: on an oracle whose single listed seed
fails with `EnvironmentNotFound`, the self-check stops at that seed (the
trace shows the judge was consulted on seed "a"), yet the structured error
it reports carries no seed at all — so not every failure the workflow stops
at identifies the seed that failed. -/
theorem c4_error_seed_counterexample :
    (check_challenge (check_args judge_env_missing) mint_w).1 =
      .ok (.error .environmentNotFound)
    ∧ (check_challenge (check_args judge_env_missing) mint_w).2 =
        [.examplesCall,
         example_call "python" "print(9)" (some 1000) (some 256) "a"]
    ∧ CheckError.seed_of .environmentNotFound = none := by
  decide

/-- C4 (amended): when the self-check stops at the first non-passing seed
`s` of the sequence, a failing test case is reported as `TestcaseFailed`
carrying both the seed and its check result, whereas the protocol failures
`EvaluatorFailed` and `InvalidOutput` carry only the sandbox record and
`EnvironmentNotFound` carries nothing — none of the three names the seed. -/
theorem c4_error_seed_amended (c : CheckChallenge) (mint : Nat → String)
    (exs pre post : List String) (s : String)
    (hex : c.judge.examples = .ok exs) (hne : exs ≠ [])
    (hseq : seed_sequence exs c.challenge_id c.static_tests c.random_tests
        mint = pre ++ s :: post)
    (hpre : ∀ x ∈ pre, passes c.judge c.solution_environment c.solution_code
        (some c.time_limit) (some c.memory_limit) x = true) :
    (∀ res, c.judge.get_example_checked s c.solution_environment
        c.solution_code (some c.time_limit) (some c.memory_limit) =
        .ok (.error res) →
      (check_challenge c mint).1 = .ok (.error (.testcaseFailed s res))
      ∧ CheckError.seed_of (.testcaseFailed s res) = some s)
    ∧ (∀ r, c.judge.get_example_checked s c.solution_environment
        c.solution_code (some c.time_limit) (some c.memory_limit) =
        .error (.evaluatorFailed r) →
      (check_challenge c mint).1 = .ok (.error (.evaluatorFailed r))
      ∧ CheckError.seed_of (.evaluatorFailed r) = none)
    ∧ (∀ r, c.judge.get_example_checked s c.solution_environment
        c.solution_code (some c.time_limit) (some c.memory_limit) =
        .error (.invalidOutput r) →
      (check_challenge c mint).1 = .ok (.error (.invalidOutput r))
      ∧ CheckError.seed_of (.invalidOutput r) = none)
    ∧ (c.judge.get_example_checked s c.solution_environment
        c.solution_code (some c.time_limit) (some c.memory_limit) =
        .error .environmentNotFound →
      (check_challenge c mint).1 = .ok (.error .environmentNotFound)
      ∧ CheckError.seed_of .environmentNotFound = none) := by
  have hni : exs.isEmpty = false := by
    cases exs with
    | nil => simp at hne
    | cons a l => rfl
  have hred : (check_challenge c mint).1 =
      (check_seeds c.judge c.solution_environment c.solution_code
        (some c.time_limit) (some c.memory_limit) (s :: post)).1 := by
    rw [show (check_challenge c mint).1 =
        (check_seeds c.judge c.solution_environment c.solution_code
          (some c.time_limit) (some c.memory_limit)
          (seed_sequence exs c.challenge_id c.static_tests c.random_tests
            mint)).1 from by simp [check_challenge, hex, hni]]
    rw [hseq]
    exact check_seeds_skip c.judge c.solution_environment c.solution_code
      (some c.time_limit) (some c.memory_limit) pre (s :: post) hpre
  refine ⟨?_, ?_, ?_, ?_⟩
  · intro res hres
    rw [hred]
    exact ⟨by simp [check_seeds, hres], rfl⟩
  · intro r hr
    rw [hred]
    exact ⟨by simp [check_seeds, hr], rfl⟩
  · intro r hr
    rw [hred]
    exact ⟨by simp [check_seeds, hr], rfl⟩
  · intro hr
    rw [hred]
    exact ⟨by simp [check_seeds, hr], rfl⟩

/-- Witness for the amended C4: the oracle failing on seed "b" only makes
the self-check report `TestcaseFailed` with seed "b" and its result. -/
theorem c4_error_seed_amended_witness :
    (check_challenge (check_args judge_seed_fails) mint_w).1 =
      .ok (.error (.testcaseFailed "b" check_res_w))
    ∧ CheckError.seed_of (.testcaseFailed "b" check_res_w) = some "b" :=
  (c4_error_seed_amended (check_args judge_seed_fails) mint_w
    ["a", "b"] ["a"] ["_static_0_cid", "rand0"] "b" rfl (by decide)
    (by decide) (by decide)).1 check_res_w (by decide)

/-! C5: propagation of the raw sandbox record. -/

/-- Counterexample to C5 as stated: the get-examples endpoint surfaces an
`EvaluatorFailed` from the evaluator listing as its payload-free
`EvaluatorFailed` response — the `BuildRunResult` the judge error carried is
stripped from the surfaced error (it is only logged). -/
theorem c5_record_stripped_counterexample :
    judge_list_fails.examples = .error (.evaluatorFailed build_w)
    ∧ get_examples judge_list_fails "python" "print(9)" =
        (.evaluatorFailed, [.examplesCall])
    ∧ GetExamplesResponse.record_of .evaluatorFailed = none := by
  decide

/-- C5 (amended): the self-check workflow propagates the raw sandbox record
of `EvaluatorFailed` and `InvalidOutput` unmodified into the error it
surfaces, consulting the judge exactly once (no retry); the get-examples and
test-example endpoints instead answer with their payload-free
evaluator-failed response, dropping the record. -/
theorem c5_record_propagation_amended (c : CheckChallenge)
    (mint : Nat → String) :
    (∀ r, c.judge.examples = .error (.evaluatorFailed r) →
      check_challenge c mint =
        (.ok (.error (.evaluatorFailed r)), [.examplesCall]))
    ∧ (∀ r, c.judge.examples = .error (.invalidOutput r) →
      check_challenge c mint =
        (.ok (.error (.invalidOutput r)), [.examplesCall]))
    ∧ (∀ judge env code r, JudgeOracle.examples judge =
        .error (.evaluatorFailed r) →
      get_examples judge env code = (.evaluatorFailed, [.examplesCall]))
    ∧ (∀ judge id env code tl ml r, JudgeOracle.examples judge =
        .error (.invalidOutput r) →
      test_example judge true id env code tl ml =
        (.evaluatorFailed, [.examplesCall])) := by
  refine ⟨?_, ?_, ?_, ?_⟩
  · intro r hr
    simp [check_challenge, hr]
  · intro r hr
    simp [check_challenge, hr]
  · intro judge env code r hr
    simp [get_examples, hr]
  · intro judge id env code tl ml r hr
    simp [test_example, hr]

/-- Witness for the amended C5: the self-check surfaces the concrete crash
record unmodified. -/
theorem c5_record_propagation_amended_witness :
    check_challenge (check_args judge_list_fails) mint_w =
      (.ok (.error (.evaluatorFailed build_w)), [.examplesCall]) :=
  (c5_record_propagation_amended (check_args judge_list_fails) mint_w).1
    build_w rfl

/-! C9: validation of matchings. -/

/-- Characterization of the success case of `check_matching`, with the `u8`
truncation `left.length % 256` kept explicit. -/
theorem check_matching_ok_iff (left right : List String)
    (solution : List Nat) :
    check_matching left right solution = .ok () ↔
      right.length = left.length ∧ solution.length = left.length
      ∧ (∀ x ∈ solution, x < left.length % 256)
      ∧ (∀ i < left.length % 256, i ∈ solution) := by
  by_cases h1 : right.length = left.length
  · by_cases h2 : solution.length = left.length
    · cases hf : solution.find? (fun x => decide (left.length % 256 ≤ x)) with
      | some x =>
        have hmem := List.mem_of_find?_eq_some hf
        have hx : left.length % 256 ≤ x := by simpa using List.find?_some hf
        constructor
        · intro hok
          simp [check_matching, h1, h2, hf] at hok
        · rintro ⟨-, -, hall, -⟩
          exact absurd (hall x hmem) (by omega)
      | none =>
        have hnone : ∀ x ∈ solution, x < left.length % 256 := by
          intro x hx
          have h3 := List.find?_eq_none.1 hf x hx
          simp at h3
          omega
        by_cases h3 : (List.range (left.length % 256)).filter
            (fun i => ! solution.contains i) = []
        · have hcov : ∀ i < left.length % 256, i ∈ solution := by
            intro i hi
            by_contra hni
            have hmemf : i ∈ (List.range (left.length % 256)).filter
                (fun i => ! solution.contains i) := by
              rw [List.mem_filter]
              exact ⟨List.mem_range.2 hi, by simpa using hni⟩
            rw [h3] at hmemf
            exact absurd hmemf (List.not_mem_nil i)
          constructor
          · intro _
            exact ⟨h1, h2, hnone, hcov⟩
          · intro _
            simp only [check_matching, hf]
            rw [if_neg (fun hne => hne h1), if_neg (fun hne => hne h2),
              if_neg (fun hne => hne h3)]
        · have hres : check_matching left right solution =
              .error (.rightEntriesNotMatched
                ((List.range (left.length % 256)).filter
                  (fun i => ! solution.contains i))) := by
            simp only [check_matching, hf]
            rw [if_neg (fun hne => hne h1), if_neg (fun hne => hne h2),
              if_pos h3]
          rw [hres]
          constructor
          · intro hok
            exact absurd hok (by simp)
          · rintro ⟨-, -, -, hcov⟩
            exfalso
            obtain ⟨i, hi⟩ := List.exists_mem_of_ne_nil _ h3
            have hmf := List.mem_filter.1 hi
            have hir : i < left.length % 256 := List.mem_range.1 hmf.1
            have hnc : i ∉ solution := by simpa using hmf.2
            exact hnc (hcov i hir)
    · constructor
      · intro hok
        simp [check_matching, h1, h2] at hok
      · rintro ⟨-, hlen, -, -⟩
        exact absurd hlen h2
  · constructor
    · intro hok
      simp [check_matching, h1] at hok
    · rintro ⟨hlen, -, -, -⟩
      exact absurd hlen h1

set_option maxRecDepth 10000 in
/-- Counterexample to C9 as stated: at `n = 256` (lists of length 256 with
`solution` the identity permutation of `0..256`, all entries valid `u8`
values), the claim's success conditions all hold, yet `check_matching`
returns `InvalidIndex 0` because the source compares entries against
`n as u8 = 0`. -/
theorem c9_check_matching_counterexample :
    ((List.replicate 256 "" : List String).length =
        (List.replicate 256 "" : List String).length
     ∧ (List.range 256).length = (List.replicate 256 "" : List String).length
     ∧ (∀ x ∈ List.range 256,
          x < (List.replicate 256 "" : List String).length)
     ∧ (∀ i < (List.replicate 256 "" : List String).length,
          i ∈ List.range 256))
    ∧ check_matching (List.replicate 256 "") (List.replicate 256 "")
        (List.range 256) = .error (.invalidIndex 0)
    ∧ check_matching (List.replicate 256 "") (List.replicate 256 "")
        (List.range 256) ≠ .ok () := by
  refine ⟨⟨rfl, ?_, ?_, ?_⟩, ?_, ?_⟩
  · rw [List.length_range, List.length_replicate]
  · intro x hx
    rw [List.length_replicate]
    exact List.mem_range.1 hx
  · intro i hi
    rw [List.length_replicate] at hi
    exact List.mem_range.2 hi
  · decide
  · decide

/-- C9 (amended): provided `left` has fewer than 256 entries (so that the
`u8` cast of `n = left.len()` in the source is lossless), `check_matching`
returns Ok exactly when `left`, `right` and `solution` have the same length
`n`, every entry of `solution` is below `n`, and every index below `n`
occurs in `solution`; otherwise it reports `LeftRightDifferentLength`,
`SolutionDifferentLength`, `InvalidIndex`, or `RightEntriesNotMatched`,
checked in that order. -/
theorem c9_check_matching_amended (left right : List String)
    (solution : List Nat) (h : left.length < 256) :
    (check_matching left right solution = .ok () ↔
      right.length = left.length ∧ solution.length = left.length
      ∧ (∀ x ∈ solution, x < left.length)
      ∧ (∀ i < left.length, i ∈ solution))
    ∧ (right.length ≠ left.length →
        check_matching left right solution = .error .leftRightDifferentLength)
    ∧ (right.length = left.length → solution.length ≠ left.length →
        check_matching left right solution = .error .solutionDifferentLength)
    ∧ (right.length = left.length → solution.length = left.length →
        (∃ x ∈ solution, left.length ≤ x) →
        ∃ x ∈ solution, left.length ≤ x ∧
          check_matching left right solution = .error (.invalidIndex x))
    ∧ (right.length = left.length → solution.length = left.length →
        (∀ x ∈ solution, x < left.length) →
        (∃ i < left.length, i ∉ solution) →
        ∃ xs, xs ≠ [] ∧ (∀ i ∈ xs, i < left.length ∧ i ∉ solution) ∧
          check_matching left right solution =
            .error (.rightEntriesNotMatched xs)) := by
  have hmod : left.length % 256 = left.length := Nat.mod_eq_of_lt h
  refine ⟨?_, ?_, ?_, ?_, ?_⟩
  · rw [check_matching_ok_iff, hmod]
  · intro h1
    simp [check_matching, h1]
  · intro h1 h2
    simp [check_matching, h1, h2]
  · intro h1 h2 hex
    have hsome : (solution.find?
        (fun x => decide (left.length % 256 ≤ x))).isSome = true := by
      rw [List.find?_isSome]
      obtain ⟨x, hx, hge⟩ := hex
      exact ⟨x, hx, by simpa [hmod] using hge⟩
    obtain ⟨x, hfx⟩ := Option.isSome_iff_exists.1 hsome
    refine ⟨x, List.mem_of_find?_eq_some hfx, ?_, ?_⟩
    · have := List.find?_some hfx
      simp [hmod] at this
      exact this
    · simp [check_matching, h1, h2, hfx]
  · intro h1 h2 hall hex
    have hfn : solution.find? (fun x => decide (left.length % 256 ≤ x)) =
        none := by
      rw [List.find?_eq_none]
      intro x hx
      have := hall x hx
      simp [hmod]
      omega
    have hfne : (List.range (left.length % 256)).filter
        (fun i => ! solution.contains i) ≠ [] := by
      obtain ⟨i, hi, hni⟩ := hex
      intro hnil
      have hmemf : i ∈ (List.range (left.length % 256)).filter
          (fun i => ! solution.contains i) := by
        rw [List.mem_filter]
        exact ⟨List.mem_range.2 (by omega), by simpa using hni⟩
      rw [hnil] at hmemf
      exact absurd hmemf (List.not_mem_nil i)
    refine ⟨(List.range (left.length % 256)).filter
        (fun i => ! solution.contains i), hfne, ?_, ?_⟩
    · intro i hi
      have hmf := List.mem_filter.1 hi
      refine ⟨by have := List.mem_range.1 hmf.1; omega, by simpa using hmf.2⟩
    · simp only [check_matching, hfn]
      rw [if_neg (fun hne => hne h1), if_neg (fun hne => hne h2),
        if_pos hfne]

/-- Witness for the amended C9: the matching from the repository's own unit
test (`[A,B,C]` ↔ `[X,Y,Z]` with solution `[2,0,1]`) validates. -/
theorem c9_check_matching_amended_witness :
    (["A", "B", "C"] : List String).length < 256
    ∧ check_matching ["A", "B", "C"] ["X", "Y", "Z"] [2, 0, 1] = .ok () :=
  ⟨by decide,
    (c9_check_matching_amended ["A", "B", "C"] ["X", "Y", "Z"] [2, 0, 1]
      (by decide)).1.mpr (by decide)⟩

/-! C10: an already-solved matching is read-only. -/

/-- C10: when the matching exists and is visible, the user has access, the
answer has the right length, and the user has already solved the matching,
`solve_matching` performs no database writes — no attempt row, no
user-subtask update, no reward — and still returns the computed
solved/correct feedback for the submitted answer. -/
theorem c10_solved_no_writes (i : SolveMatchingInput)
    (h1 : i.matching_found = true)
    (h2 : i.admin = true ∨ i.user_id = i.creator ∨ i.enabled = true)
    (h3 : i.has_access = true)
    (h4 : i.answer.length = i.solution.length)
    (h5 : i.solved_previously = true) :
    solve_matching i =
      (.ok ((i.answer.zip i.solution).countP (fun p => p.1 == p.2) ==
              i.solution.length)
           ((i.answer.zip i.solution).countP (fun p => p.1 == p.2)), []) := by
  rcases h2 with ha | hc | he
  · simp [solve_matching, h1, h3, h4, h5, ha]
  · simp [solve_matching, h1, h3, h4, h5, hc]
  · simp [solve_matching, h1, h3, h4, h5, he]

/-- Witness for C10: a previously solved matching with a half-correct
answer gets feedback `(solved := false, correct := 1)` and an empty write
list. -/
theorem c10_solved_no_writes_witness :
    solve_matching solve_in_w = (.ok false 1, []) := by
  rw [c10_solved_no_writes solve_in_w rfl (.inr (.inr rfl)) rfl rfl rfl]
  decide

/-! C7: first-solve reward issuance under concurrency. -/

/-- Counterexample to C7 as stated: `solve_matching` holds no guard across
its read-check-write, so in the interleaving read₁, read₂, write₁, write₂
both concurrent first-correct requests observe "not yet solved", both
complete, and two solved-records and two rewards are issued. -/
theorem c7_reward_race_counterexample :
    run_unguarded [true, false, true, false] .readStep .readStep
      { solved := false, record_writes := 0, reward_sends := 0 } =
      (.finished, .finished,
       { solved := true, record_writes := 2, reward_sends := 2 }) := by
  decide

/-- The invariant `RewardInv` is preserved by every step of the guarded
model. -/
theorem guarded_step_inv (pid : Bool) (g : GState) (h : RewardInv g) :
    RewardInv (guarded_step pid g) := by
  obtain ⟨h1, h2, h3, h4, h5, h6, h7, h8⟩ := h
  cases pid
  case false =>
    cases hp : g.p2 with
    | acquireStep =>
      cases hl : g.lock with
      | none =>
        have hg : guarded_step false g =
            { g with
              p2 := .readStep
              lock := some false } := by
          simp [guarded_step, hp, hl]
        rw [hg]
        refine ⟨h1, h2, ?_, ?_, h5, ?_, h7, ?_⟩
        · intro hcrit
          exact absurd (h3 hcrit) (by rw [hl]; simp)
        · intro _
          rfl
        · intro saw hsaw
          simp at hsaw
        · intro hfin
          simp at hfin
      | some o =>
        have hg : guarded_step false g = g := by
          simp [guarded_step, hp, hl]
        rw [hg]
        exact ⟨h1, h2, h3, h4, h5, h6, h7, h8⟩
    | readStep =>
      have hg : guarded_step false g =
          { g with p2 := .writeStep g.store.solved } := by
        simp [guarded_step, hp]
      rw [hg]
      refine ⟨h1, h2, h3, ?_, h5, ?_, h7, ?_⟩
      · intro _
        exact h4 (by rw [hp]; rfl)
      · intro saw hsaw
        have hinj : g.store.solved = saw := by
          injection hsaw
        exact hinj.symm
      · intro hfin
        simp at hfin
    | writeStep saw =>
      have hsol := h6 saw hp
      have hlock := h4 (by rw [hp]; rfl)
      cases saw with
      | true =>
        have hg : guarded_step false g =
            { g with
              p2 := .finished
              lock := none } := by
          simp [guarded_step, hp]
        rw [hg]
        refine ⟨h1, h2, ?_, ?_, h5, ?_, h7, ?_⟩
        · intro hcrit
          exact absurd (h3 hcrit) (by rw [hlock]; simp)
        · intro hcrit
          exact Bool.noConfusion hcrit
        · intro saw2 hsaw2
          simp at hsaw2
        · intro _
          exact hsol.symm
      | false =>
        have hg : guarded_step false g =
            { g with
              p2 := .finished
              lock := none
              store := { solved := true
                         record_writes := g.store.record_writes + 1
                         reward_sends := g.store.reward_sends + 1 } } := by
          simp [guarded_step, hp]
        rw [hg]
        refine ⟨?_, ?_, ?_, ?_, ?_, ?_, ?_, ?_⟩
        · show g.store.reward_sends + 1 = _
          rw [h1, ← hsol]
          simp
        · show g.store.record_writes + 1 = g.store.reward_sends + 1
          rw [h2]
        · intro hcrit
          exact absurd (h3 hcrit) (by rw [hlock]; simp)
        · intro hcrit
          exact Bool.noConfusion hcrit
        · intro saw2 hsaw2
          exact absurd (h3 (by rw [hsaw2]; rfl)) (by rw [hlock]; simp)
        · intro saw2 hsaw2
          simp at hsaw2
        · intro _
          rfl
        · intro _
          rfl
    | finished =>
      have hg : guarded_step false g = g := by
        simp [guarded_step, hp]
      rw [hg]
      exact ⟨h1, h2, h3, h4, h5, h6, h7, h8⟩
  case true =>
    cases hp : g.p1 with
    | acquireStep =>
      cases hl : g.lock with
      | none =>
        have hg : guarded_step true g =
            { g with
              p1 := .readStep
              lock := some true } := by
          simp [guarded_step, hp, hl]
        rw [hg]
        refine ⟨h1, h2, ?_, ?_, ?_, h6, ?_, h8⟩
        · intro _
          rfl
        · intro hcrit
          exact absurd (h4 hcrit) (by rw [hl]; simp)
        · intro saw hsaw
          simp at hsaw
        · intro hfin
          simp at hfin
      | some o =>
        have hg : guarded_step true g = g := by
          simp [guarded_step, hp, hl]
        rw [hg]
        exact ⟨h1, h2, h3, h4, h5, h6, h7, h8⟩
    | readStep =>
      have hg : guarded_step true g =
          { g with p1 := .writeStep g.store.solved } := by
        simp [guarded_step, hp]
      rw [hg]
      refine ⟨h1, h2, ?_, h4, ?_, h6, ?_, h8⟩
      · intro _
        exact h3 (by rw [hp]; rfl)
      · intro saw hsaw
        have hinj : g.store.solved = saw := by
          injection hsaw
        exact hinj.symm
      · intro hfin
        simp at hfin
    | writeStep saw =>
      have hsol := h5 saw hp
      have hlock := h3 (by rw [hp]; rfl)
      cases saw with
      | true =>
        have hg : guarded_step true g =
            { g with
              p1 := .finished
              lock := none } := by
          simp [guarded_step, hp]
        rw [hg]
        refine ⟨h1, h2, ?_, ?_, ?_, h6, ?_, h8⟩
        · intro hcrit
          exact Bool.noConfusion hcrit
        · intro hcrit
          exact absurd (h4 hcrit) (by rw [hlock]; simp)
        · intro saw2 hsaw2
          simp at hsaw2
        · intro _
          exact hsol.symm
      | false =>
        have hg : guarded_step true g =
            { g with
              p1 := .finished
              lock := none
              store := { solved := true
                         record_writes := g.store.record_writes + 1
                         reward_sends := g.store.reward_sends + 1 } } := by
          simp [guarded_step, hp]
        rw [hg]
        refine ⟨?_, ?_, ?_, ?_, ?_, ?_, ?_, ?_⟩
        · show g.store.reward_sends + 1 = _
          rw [h1, ← hsol]
          simp
        · show g.store.record_writes + 1 = g.store.reward_sends + 1
          rw [h2]
        · intro hcrit
          exact Bool.noConfusion hcrit
        · intro hcrit
          exact absurd (h4 hcrit) (by rw [hlock]; simp)
        · intro saw2 hsaw2
          simp at hsaw2
        · intro saw2 hsaw2
          exact absurd (h4 (by rw [hsaw2]; rfl)) (by rw [hlock]; simp)
        · intro _
          rfl
        · intro _
          rfl
    | finished =>
      have hg : guarded_step true g = g := by
        simp [guarded_step, hp]
      rw [hg]
      exact ⟨h1, h2, h3, h4, h5, h6, h7, h8⟩

/-- The invariant holds after any schedule. -/
theorem run_guarded_inv (sched : List Bool) (g : GState) (h : RewardInv g) :
    RewardInv (run_guarded sched g) := by
  induction sched generalizing g with
  | nil => exact h
  | cons pid rest ih => exact ih (guarded_step pid g) (guarded_step_inv pid g h)

/-- C7 (amended): in the guarded model — the per-subtask Reward Guard held
across the read-check-write, modelled from the spec for the coding-challenge
grading path whose submissions endpoint is not among the visible sources —
every interleaving of two concurrent first-correct requests issues at most
one solved-record and one reward, and exactly one of each once both
requests have completed. -/
theorem c7_reward_guard_amended (sched : List Bool) :
    (run_guarded sched g_init).store.reward_sends ≤ 1
    ∧ (run_guarded sched g_init).store.record_writes ≤ 1
    ∧ ((run_guarded sched g_init).p1 = .finished →
       (run_guarded sched g_init).p2 = .finished →
       (run_guarded sched g_init).store.reward_sends = 1
       ∧ (run_guarded sched g_init).store.record_writes = 1) := by
  have hinit : RewardInv g_init := by
    refine ⟨rfl, rfl, ?_, ?_, ?_, ?_, ?_, ?_⟩ <;>
      first
      | exact fun hcrit => Bool.noConfusion hcrit
      | exact fun saw hsaw => nomatch hsaw
      | exact fun hfin => nomatch hfin
  obtain ⟨h1, h2, h3, h4, h5, h6, h7, h8⟩ :=
    run_guarded_inv sched g_init hinit
  refine ⟨?_, ?_, ?_⟩
  · rw [h1]
    split <;> omega
  · rw [h2, h1]
    split <;> omega
  · intro hf1 hf2
    have hsol := h7 hf1
    constructor
    · rw [h1, hsol]
      rfl
    · rw [h2, h1, hsol]
      rfl

/-- Witness for the amended C7: a schedule on which both guarded requests
run to completion; exactly one reward and one solved-record result. -/
theorem c7_reward_guard_amended_witness :
    (run_guarded [true, true, true, false, false, false] g_init).p1 =
        .finished
    ∧ (run_guarded [true, true, true, false, false, false] g_init).p2 =
        .finished
    ∧ (run_guarded [true, true, true, false, false, false]
        g_init).store.reward_sends = 1
    ∧ (run_guarded [true, true, true, false, false, false]
        g_init).store.record_writes = 1 :=
  ⟨by decide, by decide,
    ((c7_reward_guard_amended [true, true, true, false, false, false]).2.2
      (by decide) (by decide)).1,
    ((c7_reward_guard_amended [true, true, true, false, false, false]).2.2
      (by decide) (by decide)).2⟩

end ChallengesMs
